import Mathlib

/-!
Verification of the dir-tree repository (github.com/Maxim-Ba/dir-tree).

The Go sources are embedded shallowly:

* `tree/tree.go` — the tree builder.  Pointers `*Node` become `Option Node`,
  the Go pair return `(*Node, error)` becomes `Option Node × Option BuildError`,
  and the (potentially non-terminating, e.g. on symlink cycles with
  follow-links) recursion is indexed by fuel: an outer `none` means the
  computation did not finish within the given fuel, `some (n, e)` is the pair
  the Go function returns.
* The filesystem (`os.Stat`, `os.ReadDir`, `filepath.EvalSymlinks`) is an
  abstract structure `FS`; `regexp.MatchString` is an abstract `Matcher`
  returning `none` for a compile error and `some b` for a match result.
* `formatter/formatter.go` — the output formatter; the Go standard-library
  marshalers are modelled at the precision the theorems need (their behavior
  on a nil pointer is exact).
* `dirtree/dirtree.go` and `cmd/main.go` — construction of `BuildOptions`
  from a `Config`.
-/

namespace DirTree

/-- FileType mirrors tree.go's `FileType` string constants
`Directory | File | Symlink` as a closed enumeration. -/
inductive FileType where
  | directory
  | file
  | symlink
deriving DecidableEq, Repr

/-- Node mirrors tree.go's `Node` struct; the `[]*Node` children slice is a
`List Node` (the builder never stores nil child pointers). -/
inductive Node where
  | mk (name : String) (path : String) (ftype : FileType) (size : Int)
       (children : List Node) (isHidden : Bool)

def Node.name : Node → String
  | .mk n _ _ _ _ _ => n

def Node.path : Node → String
  | .mk _ p _ _ _ _ => p

def Node.ftype : Node → FileType
  | .mk _ _ t _ _ _ => t

def Node.size : Node → Int
  | .mk _ _ _ s _ _ => s

def Node.children : Node → List Node
  | .mk _ _ _ _ c _ => c

def Node.isHidden : Node → Bool
  | .mk _ _ _ _ _ h => h

/-- BuildOptions mirrors tree.go's `BuildOptions`. `maxDepth` is an `Int`
because `-1` means unlimited. -/
structure BuildOptions where
  path : String
  maxDepth : Int
  excludePaths : List String
  excludeTypes : List String
  includeFiles : Bool
  followLinks : Bool
deriving DecidableEq, Repr

/-- FileInfo models the part of Go's `os.FileInfo` the builder reads:
`Name()`, `Size()`, `IsDir()` and `Mode()&os.ModeSymlink != 0`. -/
structure FileInfo where
  name : String
  size : Int
  isDir : Bool
  isSymlink : Bool
deriving DecidableEq, Repr

/-- FS models the filesystem operations used by tree.go.
`stat` is `os.Stat` (`none` = error), `evalSymlinks` is
`filepath.EvalSymlinks` (`none` = error), and `readDir` is `os.ReadDir`
followed by per-entry `entry.Info()`: a `none` list element models an entry
whose `Info()` call failed (the builder skips it). -/
structure FS where
  stat : String → Option FileInfo
  evalSymlinks : String → Option String
  readDir : String → Except String (List (Option FileInfo))

/-- Matcher models `regexp.MatchString pattern path`: `none` is a pattern
compile error, `some b` is a successful match result. -/
def Matcher : Type := String → String → Option Bool

/-- BuildError models the two error productions of tree.go: the root
`os.Stat` failure wrap and the `os.ReadDir` failure wrap. -/
inductive BuildError where
  | accessError (path : String)
  | dirReadError (path : String) (msg : String)
deriving DecidableEq, Repr

/-- Backward scan of Go's `filepath.Ext`: walk the path from its end toward
the last separator; on the first dot return the suffix from it, on a
separator (or exhaustion) return the empty string. -/
def extScan : List Char → List Char → String
  | [], _ => ""
  | c :: rest, acc =>
    if c = '/' then ""
    else if c = '.' then String.mk (c :: acc)
    else extScan rest (c :: acc)

/-- Go's `filepath.Ext`: the suffix beginning at the final dot in the final
slash-separated element of path; empty if there is no dot. -/
def filepathExt (path : String) : String :=
  extScan path.toList.reverse []

/-- Go's `filepath.Join currentPath name` for the nonempty, already-clean
paths this development works with. -/
def joinPath (a b : String) : String := a ++ "/" ++ b

/-- isExcludedPath from tree.go: some pattern both compiles and matches
(`err == nil && matched`); a pattern whose compilation fails is skipped. -/
def isExcludedPath (m : Matcher) (path : String) (excludePatterns : List String) : Bool :=
  excludePatterns.any fun pat =>
    match m pat path with
    | some matched => matched
    | none => false

/-- Go's strings.ToLower restricted to ASCII (the only alphabet the claims
exercise); written over the character list so that concrete runs reduce. -/
def stringToLower (s : String) : String :=
  String.mk (s.toList.map Char.toLower)

/-- isExcludedType from tree.go: the lower-cased extension of path equals
some lower-cased entry of excludeTypes. -/
def isExcludedType (path : String) (excludeTypes : List String) : Bool :=
  let ext := stringToLower (filepathExt path)
  excludeTypes.any fun excludedExt => stringToLower excludedExt == ext

/-- isHiddenFile from tree.go: `strings.HasPrefix(name, ".")` — the name's
first character is a dot; character-list form so that concrete runs
reduce. -/
def isHiddenFile (name : String) : Bool :=
  match name.toList with
  | [] => false
  | c :: _ => c == '.'

/-- Type/size classification of tree.go lines 66-92: directories get
(Directory, 0); symlinks get (Symlink, raw size) unless follow-links
resolves them to a directory (Directory, 0) or to a file (File, target
size); everything else is (File, size). -/
def nodeTypeSize (fs : FS) (opts : BuildOptions) (currentPath : String)
    (info : FileInfo) : FileType × Int :=
  if info.isDir then (FileType.directory, 0)
  else if info.isSymlink then
    if opts.followLinks then
      match fs.evalSymlinks currentPath with
      | some targetPath =>
        match fs.stat targetPath with
        | some targetInfo =>
          if targetInfo.isDir then (FileType.directory, 0)
          else (FileType.file, targetInfo.size)
        | none => (FileType.symlink, info.size)
      | none => (FileType.symlink, info.size)
    else (FileType.symlink, info.size)
  else (FileType.file, info.size)

/-- Children loop of buildTreeRecursive (tree.go lines 125-145).  `f` is the
recursive call at depth `currentDepth + 1` (fuel already decremented).  An
entry whose `Info()` failed (`none`) is skipped; a non-directory entry is
skipped when `includeFiles` is false; a child error aborts the loop; a nil
child (filtered out) is not appended. -/
def buildChildren (opts : BuildOptions)
    (f : String → FileInfo → Option (Option Node × Option BuildError)) :
    (currentPath : String) → (entries : List (Option FileInfo)) →
    Option (Except BuildError (List Node))
  | _, [] => some (Except.ok [])
  | currentPath, none :: rest => buildChildren opts f currentPath rest
  | currentPath, some entryInfo :: rest =>
    if !opts.includeFiles && !entryInfo.isDir then
      buildChildren opts f currentPath rest
    else
      match f (joinPath currentPath entryInfo.name) entryInfo with
      | none => none
      | some (_, some err) => some (Except.error err)
      | some (child, none) =>
        match buildChildren opts f currentPath rest with
        | none => none
        | some (Except.error e) => some (Except.error e)
        | some (Except.ok others) =>
          some (Except.ok (match child with
            | some c => c :: others
            | none => others))

/-- buildTreeRecursive from tree.go lines 49-149.  The checks run in source
order: depth limit, path exclusion, type/size resolution, type exclusion
(files only), hidden flag, then — for directories — `os.ReadDir` on
`currentPath` (the `FollowLinks && node.Type == Symlink` branch of lines
108-116 is dead, since `node.Type` was just reassigned) and the children
loop.  Outer `none` means the computation did not finish within `fuel`. -/
def buildTreeRecursive (fs : FS) (m : Matcher) (opts : BuildOptions) :
    (fuel : Nat) → (currentPath : String) → (info : FileInfo) →
    (currentDepth : Nat) → Option (Option Node × Option BuildError)
  | 0, _, _, _ => none
  | fuel + 1, currentPath, info, currentDepth =>
    if opts.maxDepth ≠ -1 ∧ (currentDepth : Int) > opts.maxDepth then
      some (none, none)
    else if isExcludedPath m currentPath opts.excludePaths then
      some (none, none)
    else
      let ts := nodeTypeSize fs opts currentPath info
      if ts.1 = FileType.file ∧ isExcludedType currentPath opts.excludeTypes then
        some (none, none)
      else if ts.1 = FileType.directory then
        match fs.readDir currentPath with
        | Except.error msg => some (none, some (BuildError.dirReadError currentPath msg))
        | Except.ok entries =>
          match buildChildren opts
              (fun p i => buildTreeRecursive fs m opts fuel p i (currentDepth + 1))
              currentPath entries with
          | none => none
          | some (Except.error e) => some (none, some e)
          | some (Except.ok cs) =>
            some (some (Node.mk info.name currentPath ts.1 ts.2 cs
              (isHiddenFile info.name)), none)
      else
        some (some (Node.mk info.name currentPath ts.1 ts.2 []
          (isHiddenFile info.name)), none)
termination_by structural fuel => fuel

/-- BuildTree from tree.go lines 39-46: stat the root (failure is the
access error, no tree), then run the recursive builder at depth 0. -/
def BuildTree (fs : FS) (m : Matcher) (opts : BuildOptions) (fuel : Nat) :
    Option (Option Node × Option BuildError) :=
  match fs.stat opts.path with
  | none => some (none, some (BuildError.accessError opts.path))
  | some info => buildTreeRecursive fs m opts fuel opts.path info 0

/-- depthOk node k: the tree rooted at `node` (itself at relative depth 0)
has no node below relative depth k, and every node at relative depth
exactly k has no children. -/
def depthOk : Node → Nat → Bool
  | node, 0 => node.children.isEmpty
  | node, k + 1 => node.children.all fun c => depthOk c k

/-! Formatter layer (formatter.go) and its configuration (configs/cfg.go). -/

/-- FormatCfg mirrors configs.FormatCfg; `ftype` is the Go `Type` field
(`OutputFormat` is a string type with constants json/yaml/xml/txt). -/
structure FormatCfg where
  ftype : String
  outputPath : String
  indent : Int
  excludeNodeFields : List String
deriving DecidableEq, Repr

/-- contains from formatter.go: linear scan for string equality. -/
def contains (slice : List String) (item : String) : Bool :=
  slice.any fun s => s == item

/-- FilteredNode mirrors formatter.go's filteredNode struct.  Fields whose
copy was suppressed keep their Go zero value: empty strings, `none` for the
empty `FileType` string, 0, `[]` for a nil slice, false. -/
inductive FilteredNode where
  | mk (name : String) (path : String) (ftype : Option FileType) (size : Int)
       (children : List FilteredNode) (isHidden : Bool)

/-- Body of createFilteredNode (formatter.go lines 41-77) on a non-nil
node: copy each field unless its name is in excludeFields, recurse on the
children unless "children" is excluded. -/
def createFilteredNodeGo (excludeFields : List String) : Node → FilteredNode
  | Node.mk name path ty size children hidden =>
    FilteredNode.mk
      (if contains excludeFields "name" then "" else name)
      (if contains excludeFields "path" then "" else path)
      (if contains excludeFields "type" then none else some ty)
      (if contains excludeFields "size" then 0 else size)
      (if contains excludeFields "children" then []
       else children.attach.map fun c => createFilteredNodeGo excludeFields c.1)
      (if contains excludeFields "is_hidden" then false else hidden)
termination_by n => sizeOf n
decreasing_by
  simp_wf
  have h := List.sizeOf_lt_of_mem c.2
  omega

/-- createFilteredNode from formatter.go: a nil node maps to nil. -/
def createFilteredNode (node : Option Node) (excludeFields : List String) :
    Option FilteredNode :=
  node.map (createFilteredNodeGo excludeFields)

/-- Go string value of a FileType constant. -/
def FileType.toGoString : FileType → String
  | .directory => "directory"
  | .file => "file"
  | .symlink => "symlink"

/-- JSON string quoting; escaping is not modelled (no name used in the
theorems below needs an escape). -/
def jsonQuote (s : String) : String := "\"" ++ s ++ "\""

/-- Modelled from encoding/json for the Node struct and its tags
(name, path, type mandatory; size, children, is_hidden omitempty). -/
def jsonEncodeNode : Node → String
  | Node.mk name path ty size children hidden =>
    let parts : List String :=
      [jsonQuote "name" ++ ":" ++ jsonQuote name]
      ++ [jsonQuote "path" ++ ":" ++ jsonQuote path]
      ++ [jsonQuote "type" ++ ":" ++ jsonQuote ty.toGoString]
      ++ (if size == 0 then [] else [jsonQuote "size" ++ ":" ++ toString size])
      ++ (if children.isEmpty then []
          else [jsonQuote "children" ++ ":[" ++
            String.intercalate ","
              (children.attach.map fun c => jsonEncodeNode c.1) ++ "]"])
      ++ (if hidden then [jsonQuote "is_hidden" ++ ":true"] else [])
    "\x7b" ++ String.intercalate "," parts ++ "\x7d"
termination_by n => sizeOf n
decreasing_by
  simp_wf
  have h := List.sizeOf_lt_of_mem c.2
  omega

/-- Modelled from encoding/json for the filteredNode struct: every field
carries omitempty, so zero values are dropped. -/
def jsonEncodeFiltered : FilteredNode → String
  | FilteredNode.mk name path ty size children hidden =>
    let parts : List String :=
      (if name == "" then [] else [jsonQuote "name" ++ ":" ++ jsonQuote name])
      ++ (if path == "" then [] else [jsonQuote "path" ++ ":" ++ jsonQuote path])
      ++ (match ty with
          | none => []
          | some t => [jsonQuote "type" ++ ":" ++ jsonQuote t.toGoString])
      ++ (if size == 0 then [] else [jsonQuote "size" ++ ":" ++ toString size])
      ++ (if children.isEmpty then []
          else [jsonQuote "children" ++ ":[" ++
            String.intercalate ","
              (children.attach.map fun c => jsonEncodeFiltered c.1) ++ "]"])
      ++ (if hidden then [jsonQuote "is_hidden" ++ ":true"] else [])
    "\x7b" ++ String.intercalate "," parts ++ "\x7d"
termination_by n => sizeOf n
decreasing_by
  simp_wf
  have h := List.sizeOf_lt_of_mem c.2
  omega

/-- Modelled from encoding/json: Marshal of a typed nil pointer yields
"null". -/
def jsonMarshalNode : Option Node → String
  | none => "null"
  | some n => jsonEncodeNode n

/-- Modelled from encoding/json for the filtered projection; nil pointer
yields "null". -/
def jsonMarshalFiltered : Option FilteredNode → String
  | none => "null"
  | some n => jsonEncodeFiltered n

/-- Modelled from gopkg.in/yaml.v2: Marshal of a nil pointer is the line
"null"; the rendering of a non-nil tree is a simplified flow-style mapping
(no theorem below inspects it). -/
def yamlMarshalNode : Option Node → String
  | none => "null\n"
  | some n => jsonEncodeNode n ++ "\n"

/-- Modelled from gopkg.in/yaml.v2 for the filtered projection. -/
def yamlMarshalFiltered : Option FilteredNode → String
  | none => "null\n"
  | some n => jsonEncodeFiltered n ++ "\n"

/-- Modelled from encoding/xml: a non-nil tree is rendered as nested
elements (simplified; no theorem below inspects it). -/
def xmlEncodeNode : Node → String
  | Node.mk name path ty size children hidden =>
    "<Node><name>" ++ name ++ "</name><path>" ++ path ++ "</path><type>"
      ++ ty.toGoString ++ "</type><size>" ++ toString size ++ "</size><children>"
      ++ String.join (children.attach.map fun c => xmlEncodeNode c.1)
      ++ "</children><is_hidden>" ++ (if hidden then "true" else "false")
      ++ "</is_hidden></Node>"
termination_by n => sizeOf n
decreasing_by
  simp_wf
  have h := List.sizeOf_lt_of_mem c.2
  omega

/-- Modelled from encoding/xml: Marshal handles a nil pointer by writing
nothing, with no error. -/
def xmlMarshalNode : Option Node → String
  | none => ""
  | some n => xmlEncodeNode n

/-- Modelled from encoding/xml for the filtered projection (simplified
rendering of a non-nil value; no theorem below inspects it). -/
def xmlEncodeFiltered : FilteredNode → String
  | FilteredNode.mk name path ty size children hidden =>
    "<filteredNode><name>" ++ name ++ "</name><path>" ++ path ++ "</path><type>"
      ++ (match ty with | none => "" | some t => t.toGoString)
      ++ "</type><size>" ++ toString size ++ "</size><children>"
      ++ String.join (children.attach.map fun c => xmlEncodeFiltered c.1)
      ++ "</children><is_hidden>" ++ (if hidden then "true" else "false")
      ++ "</is_hidden></filteredNode>"
termination_by n => sizeOf n
decreasing_by
  simp_wf
  have h := List.sizeOf_lt_of_mem c.2
  omega

/-- Modelled from encoding/xml for the filtered projection: Marshal of a
nil pointer writes nothing, with no error. -/
def xmlMarshalFiltered : Option FilteredNode → String
  | none => ""
  | some n => xmlEncodeFiltered n

/-- formatJSON from formatter.go lines 90-102: filter when
ExcludeNodeFields is nonempty; MarshalIndent when Indent > 0 (indentation
whitespace is not modelled, so both branches produce the compact rendering;
both are exact on a nil input).  Marshaling these types never fails. -/
def formatJSON (node : Option Node) (cfg : FormatCfg) : Except String String :=
  if cfg.excludeNodeFields.length > 0 then
    let data := createFilteredNode node cfg.excludeNodeFields
    if cfg.indent > 0 then Except.ok (jsonMarshalFiltered data)
    else Except.ok (jsonMarshalFiltered data)
  else
    if cfg.indent > 0 then Except.ok (jsonMarshalNode node)
    else Except.ok (jsonMarshalNode node)

/-- formatYAML from formatter.go lines 105-114. -/
def formatYAML (node : Option Node) (cfg : FormatCfg) : Except String String :=
  if cfg.excludeNodeFields.length > 0 then
    Except.ok (yamlMarshalFiltered (createFilteredNode node cfg.excludeNodeFields))
  else
    Except.ok (yamlMarshalNode node)

/-- formatXML from formatter.go lines 117-126. -/
def formatXML (node : Option Node) (cfg : FormatCfg) : Except String String :=
  if cfg.excludeNodeFields.length > 0 then
    Except.ok (xmlMarshalFiltered (createFilteredNode node cfg.excludeNodeFields))
  else
    Except.ok (xmlMarshalNode node)

/-- Body of formatTXT (formatter.go lines 129-170) on a non-nil node: an
indent of two spaces per level, an emoji marker chosen from the node type,
then name, size and hidden marker subject to the field-exclusion list, then
the children (unless "children" is excluded). -/
def formatTXTgo (cfg : FormatCfg) : Node → Nat → String
  | Node.mk name _ ty size children hidden, level =>
    let indent := String.join (List.replicate level "  ")
    let marker :=
      if ty = FileType.file then "📄 "
      else if ty = FileType.symlink then "🔗 "
      else "📁 "
    let parts : List String :=
      [marker]
      ++ (if !contains cfg.excludeNodeFields "name" then [name] else [])
      ++ (if !contains cfg.excludeNodeFields "size" && ty = FileType.file && size > 0
          then ["(" ++ toString size ++ " bytes)"] else [])
      ++ (if !contains cfg.excludeNodeFields "is_hidden" && hidden
          then ["[hidden]"] else [])
    let line := indent ++ String.intercalate " " parts ++ "\n"
    let rest :=
      if !contains cfg.excludeNodeFields "children" then
        String.join (children.attach.map fun c => formatTXTgo cfg c.1 (level + 1))
      else ""
    line ++ rest
termination_by n _ => sizeOf n
decreasing_by
  simp_wf
  have h := List.sizeOf_lt_of_mem c.2
  omega

/-- formatTXT from formatter.go with the Go nil pointer made explicit: the
function reads node.Type before anything else, so a nil argument is a
nil-pointer dereference — modelled as `none` (a panic, not a return). -/
def formatTXT (node : Option Node) (level : Nat) (cfg : FormatCfg) : Option String :=
  node.map fun n => formatTXTgo cfg n level

/-- Format from formatter.go lines 15-28.  The outer Option models a panic
escaping the call (possible only through formatTXT); `some` carries the
([]byte, error) outcome, exclusive by construction in the source. -/
def Format (t : Option Node) (cfg : FormatCfg) : Option (Except String String) :=
  if cfg.ftype == "json" then some (formatJSON t cfg)
  else if cfg.ftype == "yaml" then some (formatYAML t cfg)
  else if cfg.ftype == "xml" then some (formatXML t cfg)
  else if cfg.ftype == "txt" then (formatTXT t 0 cfg).map Except.ok
  else some (Except.error ("unsupported format: " ++ cfg.ftype))

/-! Configuration layer (configs/cfg.go) and the two entry points that turn
a Config into BuildOptions (dirtree.go and cmd/main.go). -/

/-- Config mirrors configs.Config. -/
structure Config where
  path : String
  excludeTypes : List String
  excludePaths : List String
  includeFiles : Bool
  maxDepth : Int
  followLinks : Bool
  format : FormatCfg
deriving DecidableEq, Repr

/-- BuildOptions literal constructed by dirtree.Generate (dirtree.go lines
15-22), field for field as written in the source. -/
def generateBuildOptions (cfg : Config) : BuildOptions :=
  { path := cfg.path
    maxDepth := cfg.maxDepth
    excludePaths := cfg.excludePaths
    excludeTypes := cfg.excludePaths
    includeFiles := cfg.includeFiles
    followLinks := cfg.followLinks }

/-- BuildOptions literal constructed by the CLI main (cmd/main.go lines
26-33), field for field as written in the source. -/
def mainBuildOptions (cfg : Config) : BuildOptions :=
  { path := cfg.path
    maxDepth := cfg.maxDepth
    excludePaths := cfg.excludePaths
    excludeTypes := cfg.excludePaths
    includeFiles := cfg.includeFiles
    followLinks := cfg.followLinks }

/-! Concrete fixtures used by witnesses and counterexamples. -/

/-- Matcher under which every pattern fails to compile (none of the
fixtures below exercises path exclusion). -/
def mNone : Matcher := fun _ _ => none

/-- Fixture: the root path is a regular file carrying the excluded
extension ".txt". -/
def fsRootTxt : FS :=
  { stat := fun p => if p == "/r/a.txt" then some ⟨"a.txt", 5, false, false⟩ else none
    evalSymlinks := fun _ => none
    readDir := fun _ => Except.error "unused" }

/-- Options whose root is the /r/a.txt file and whose ExcludeTypes list
holds ".txt". -/
def optsRootTxt : BuildOptions := ⟨"/r/a.txt", -1, [], [".txt"], true, false⟩

/-- Fixture: /r is a directory whose single entry "link" is a symlink
resolving to the regular file /r/a.go (7 bytes). -/
def fsLinkGo : FS :=
  { stat := fun p =>
      if p == "/r" then some ⟨"r", 0, true, false⟩
      else if p == "/r/a.go" then some ⟨"a.go", 7, false, false⟩
      else none
    evalSymlinks := fun p => if p == "/r/link" then some "/r/a.go" else none
    readDir := fun p =>
      if p == "/r" then Except.ok [some ⟨"link", 3, false, true⟩]
      else Except.error "unused" }

/-- Options for fsLinkGo: follow links, include files, exclude ".go". -/
def optsLinkGo : BuildOptions := ⟨"/r", -1, [], [".go"], true, true⟩

/-- Fixture: /r is a directory whose single entry is a symlink (never a
regular file). -/
def fsLinkOnly : FS :=
  { stat := fun p => if p == "/r" then some ⟨"r", 0, true, false⟩ else none
    evalSymlinks := fun _ => none
    readDir := fun p =>
      if p == "/r" then Except.ok [some ⟨"link", 3, false, true⟩]
      else Except.error "unused" }

/-- Fixture: /r contains directory sub, which contains directory leaf. -/
def fsChain : FS :=
  { stat := fun p => if p == "/r" then some ⟨"r", 0, true, false⟩ else none
    evalSymlinks := fun _ => none
    readDir := fun p =>
      if p == "/r" then Except.ok [some ⟨"sub", 0, true, false⟩]
      else if p == "/r/sub" then Except.ok [some ⟨"leaf", 0, true, false⟩]
      else Except.error "unused" }

/-- Fixture: a symlink cycle under follow-links — every path stats as a
directory, every listing contains one symlink, and every symlink resolves
to its own path, so the modelled filesystem is unboundedly deep. -/
def fsCycle : FS :=
  { stat := fun _ => some ⟨"d", 0, true, false⟩
    evalSymlinks := fun p => some p
    readDir := fun _ => Except.ok [some ⟨"loop", 0, false, true⟩] }

/-- Fixture: /r is a directory whose listing cannot be read. -/
def fsUnreadable : FS :=
  { stat := fun p => if p == "/r" then some ⟨"r", 0, true, false⟩ else none
    evalSymlinks := fun _ => none
    readDir := fun _ => Except.error "permission denied" }

/-! Helper lemmas about the builder. -/

/-- A node with no children is depth-admissible for every bound. -/
theorem depthOk_children_nil (n : Node) (h : n.children = []) :
    ∀ j, depthOk n j = true := by
  intro j
  cases j with
  | zero => simp [depthOk, h]
  | succ j => simp [depthOk, h]

/-- Transport of a property of child results through the children loop:
if every non-nil node the callback can return satisfies P, every node in a
successfully accumulated children list satisfies P. -/
theorem buildChildren_sound (opts : BuildOptions)
    (f : String → FileInfo → Option (Option Node × Option BuildError))
    (P : Node → Prop)
    (hf : ∀ p i n e, f p i = some (n, e) → ∀ c, n = some c → P c) :
    ∀ (currentPath : String) (entries : List (Option FileInfo)) (cs : List Node),
      buildChildren opts f currentPath entries = some (Except.ok cs) →
      ∀ c ∈ cs, P c := by
  intro currentPath entries
  induction entries with
  | nil =>
    intro cs h c hc
    simp only [buildChildren, Option.some.injEq, Except.ok.injEq] at h
    subst h
    simp at hc
  | cons head rest ih =>
    intro cs h c hc
    cases head with
    | none =>
      simp only [buildChildren] at h
      exact ih cs h c hc
    | some entryInfo =>
      simp only [buildChildren] at h
      split at h
      · exact ih cs h c hc
      · cases hcall : f (joinPath currentPath entryInfo.name) entryInfo with
        | none => rw [hcall] at h; cases h
        | some pr =>
          obtain ⟨n, e⟩ := pr
          rw [hcall] at h
          cases e with
          | some err => simp at h
          | none =>
            cases hrest : buildChildren opts f currentPath rest with
            | none => rw [hrest] at h; simp at h
            | some r =>
              cases r with
              | error e2 => rw [hrest] at h; simp at h
              | ok others =>
                rw [hrest] at h
                simp only [Option.some.injEq, Except.ok.injEq] at h
                cases n with
                | none =>
                  subst h
                  exact ih others hrest c hc
                | some cn =>
                  subst h
                  rcases List.mem_cons.mp hc with hceq | hmem
                  · subst hceq
                    exact hf _ _ _ _ hcall c rfl
                  · exact ih others hrest c hmem

/-- If the callback always yields a result, the children loop yields a
result. -/
theorem buildChildren_isSome (opts : BuildOptions)
    (f : String → FileInfo → Option (Option Node × Option BuildError))
    (hf : ∀ p i, (f p i).isSome = true) :
    ∀ (currentPath : String) (entries : List (Option FileInfo)),
      (buildChildren opts f currentPath entries).isSome = true := by
  intro currentPath entries
  induction entries with
  | nil => simp [buildChildren]
  | cons head rest ih =>
    cases head with
    | none => simpa only [buildChildren] using ih
    | some entryInfo =>
      simp only [buildChildren]
      split
      · exact ih
      · obtain ⟨pr, hpr⟩ := Option.isSome_iff_exists.mp (hf _ _)
        rw [hpr]
        obtain ⟨n, e⟩ := pr
        cases e with
        | some err => simp
        | none =>
          obtain ⟨r, hr⟩ := Option.isSome_iff_exists.mp ih
          rw [hr]
          cases r <;> simp

/-- Per-frame shape analysis: the recursive builder never pairs a non-nil
node with a non-nil error. -/
theorem buildRec_no_partial (fs : FS) (m : Matcher) (opts : BuildOptions) :
    ∀ (fuel : Nat) (path : String) (info : FileInfo) (d : Nat)
      (n : Option Node) (e : Option BuildError),
      buildTreeRecursive fs m opts fuel path info d = some (n, e) →
      e ≠ none → n = none := by
  intro fuel path info d n e h he
  cases fuel with
  | zero => simp [buildTreeRecursive] at h
  | succ fuel =>
    simp only [buildTreeRecursive] at h
    split at h
    · simp_all
    · split at h
      · simp_all
      · split at h
        · simp_all
        · split at h
          · split at h
            · simp_all
            · split at h
              · simp_all
              · simp_all
              · simp_all
          · simp_all

/-- Fuel sufficiency: with a non-negative depth bound k, fuel beyond
k + 1 - d always yields a result, on every modelled filesystem. -/
theorem buildRec_isSome (fs : FS) (m : Matcher) (opts : BuildOptions)
    (k : Nat) (hk : opts.maxDepth = (k : Int)) :
    ∀ (fuel : Nat) (d : Nat) (path : String) (info : FileInfo),
      k + 1 - d < fuel →
      (buildTreeRecursive fs m opts fuel path info d).isSome = true := by
  intro fuel
  induction fuel with
  | zero =>
    intro d path info h
    omega
  | succ fuel ih =>
    intro d path info hfuel
    simp only [buildTreeRecursive]
    by_cases h1 : opts.maxDepth ≠ -1 ∧ (d : Int) > opts.maxDepth
    · rw [if_pos h1]; rfl
    · rw [if_neg h1]
      have hdk : d ≤ k := by
        rcases not_and_or.mp h1 with h | h
        · exfalso; apply h; rw [hk]; omega
        · rw [hk] at h; omega
      by_cases h2 : isExcludedPath m path opts.excludePaths = true
      · rw [if_pos h2]; rfl
      · rw [if_neg h2]
        by_cases h3 : (nodeTypeSize fs opts path info).1 = FileType.file ∧
            isExcludedType path opts.excludeTypes = true
        · rw [if_pos h3]; rfl
        · rw [if_neg h3]
          by_cases h4 : (nodeTypeSize fs opts path info).1 = FileType.directory
          · rw [if_pos h4]
            cases hread : fs.readDir path with
            | error msg => simp
            | ok entries =>
              have hch := buildChildren_isSome opts
                (fun p i => buildTreeRecursive fs m opts fuel p i (d + 1))
                (fun p i => ih (d + 1) p i (by omega)) path entries
              obtain ⟨r, hr⟩ := Option.isSome_iff_exists.mp hch
              simp only [hr]
              cases r <;> simp
          · rw [if_neg h4]; rfl

/-- Depth-bound invariant of the recursive builder: with maxDepth = k ≥ 0,
a call at depth d can produce a node only when d ≤ k, and the produced
subtree respects the residual bound k - d. -/
theorem buildRec_depthOk (fs : FS) (m : Matcher) (opts : BuildOptions)
    (k : Nat) (hk : opts.maxDepth = (k : Int)) :
    ∀ (fuel : Nat) (path : String) (info : FileInfo) (d : Nat) (node : Node)
      (e : Option BuildError),
      buildTreeRecursive fs m opts fuel path info d = some (some node, e) →
      d ≤ k ∧ depthOk node (k - d) = true := by
  intro fuel
  induction fuel with
  | zero =>
    intro path info d node e h
    simp [buildTreeRecursive] at h
  | succ fuel ih =>
    intro path info d node e h
    simp only [buildTreeRecursive] at h
    have hne : opts.maxDepth ≠ -1 := by rw [hk]; omega
    by_cases hd : (d : Int) > opts.maxDepth
    · rw [if_pos ⟨hne, hd⟩] at h; simp at h
    · have hdk : d ≤ k := by rw [hk] at hd; omega
      refine ⟨hdk, ?_⟩
      rw [if_neg (fun hc => hd hc.2)] at h
      by_cases h2 : isExcludedPath m path opts.excludePaths = true
      · rw [if_pos h2] at h; simp at h
      · rw [if_neg h2] at h
        by_cases h3 : (nodeTypeSize fs opts path info).1 = FileType.file ∧
            isExcludedType path opts.excludeTypes = true
        · rw [if_pos h3] at h; simp at h
        · rw [if_neg h3] at h
          by_cases h4 : (nodeTypeSize fs opts path info).1 = FileType.directory
          · rw [if_pos h4] at h
            split at h
            · simp at h
            · split at h
              · exact absurd h (by simp)
              · simp at h
              · rename_i cs hch
                simp only [Option.some.injEq, Prod.mk.injEq] at h
                obtain ⟨hnode, -⟩ := h
                have hmem : ∀ c ∈ cs, d + 1 ≤ k ∧ depthOk c (k - (d + 1)) = true := by
                  refine buildChildren_sound opts _ _ ?_ _ _ cs hch
                  intro p i n' e' hcall c hc
                  subst hc
                  exact ih p i (d + 1) c e' hcall
                subst hnode
                rcases Nat.eq_or_lt_of_le hdk with heq | hlt
                · have hcs : cs = [] := by
                    cases cs with
                    | nil => rfl
                    | cons c0 cs0 =>
                      exact absurd (hmem c0 (by simp)).1 (by omega)
                  subst hcs
                  have hkd : k - d = 0 := by omega
                  rw [hkd]
                  simp [depthOk, Node.children]
                · have hkd : k - d = (k - (d + 1)) + 1 := by omega
                  rw [hkd]
                  simp only [depthOk, Node.children, List.all_eq_true]
                  intro c hc
                  exact (hmem c hc).2
          · rw [if_neg h4] at h
            simp only [Option.some.injEq, Prod.mk.injEq] at h
            obtain ⟨hnode, -⟩ := h
            subst hnode
            apply depthOk_children_nil
            rfl

/-! Theorems. -/

/-- C1: the spec requires a nil root to format to an empty/null-equivalent
output with no error for every selector, and the json/yaml/xml paths (and
the field-filtered json path) do exactly that; but the txt path dereferences
the nil node (`node.Type`) before anything else, so `Format(nil, txt)`
panics instead of returning.  The `none` in the first conjunct is that
panic. -/
theorem C1_nil_root_txt_panics :
    Format none ⟨"txt", "", 0, []⟩ = none ∧
    Format none ⟨"json", "", 0, []⟩ = some (Except.ok "null") ∧
    Format none ⟨"json", "", 2, ["size"]⟩ = some (Except.ok "null") ∧
    Format none ⟨"yaml", "", 0, []⟩ = some (Except.ok "null\n") ∧
    Format none ⟨"xml", "", 0, []⟩ = some (Except.ok "") :=
  ⟨rfl, rfl, rfl, rfl, rfl⟩

/-- C3: dirtree.Generate and the CLI main both construct BuildOptions with
ExcludeTypes set to cfg.ExcludePaths instead of cfg.ExcludeTypes, so the
configured extension-exclusion list is never forwarded through these entry
points and the path-exclusion patterns are additionally applied as
extension exclusions. -/
theorem C3_excludeTypes_misforwarded :
    (∀ cfg : Config, (generateBuildOptions cfg).excludeTypes = cfg.excludePaths) ∧
    (∀ cfg : Config, (mainBuildOptions cfg).excludeTypes = cfg.excludePaths) ∧
    (∀ cfg : Config, (generateBuildOptions cfg).excludePaths = cfg.excludePaths) ∧
    (∀ cfg : Config, (mainBuildOptions cfg).excludePaths = cfg.excludePaths) ∧
    (∃ cfg : Config, (generateBuildOptions cfg).excludeTypes ≠ cfg.excludeTypes) ∧
    (∃ cfg : Config, (mainBuildOptions cfg).excludeTypes ≠ cfg.excludeTypes) := by
  refine ⟨fun _ => rfl, fun _ => rfl, fun _ => rfl, fun _ => rfl, ?_, ?_⟩ <;>
    exact ⟨⟨".", [".go"], [], true, -1, false, ⟨"json", "", 0, []⟩⟩, by decide⟩

/-- Fixture: the root path is a regular file whose extension ".md" is not
in the exclusion lists used below. -/
def fsRootMd : FS :=
  { stat := fun p => if p == "/r/b.md" then some ⟨"b.md", 7, false, false⟩ else none
    evalSymlinks := fun _ => none
    readDir := fun _ => Except.error "unused" }

/-- C2 (counterexample): the root path stats successfully, yet BuildTree
returns a nil tree with a nil error, because the root — a file whose
extension is in ExcludeTypes — is removed by the type-exclusion check that
tree.go applies to the root exactly as to any other node. -/
theorem C2_counterexample :
    fsRootTxt.stat "/r/a.txt" = some ⟨"a.txt", 5, false, false⟩ ∧
    BuildTree fsRootTxt mNone optsRootTxt 2 = some (none, none) :=
  ⟨rfl, rfl⟩

/-- C2 (amended): the root is subject to the same depth, path-exclusion
and type-exclusion checks as every node; BuildTree returns a non-nil root
exactly when the root survives them and no error aborts the build — so
whenever the root is not path-excluded, not a type-excluded file, the
depth bound is -1 or non-negative, and the call returns without error, the
returned tree is non-nil. -/
theorem C2_root_filtered_like_any_node (fs : FS) (m : Matcher)
    (opts : BuildOptions) (fuel : Nat) (info : FileInfo) (n : Option Node)
    (hstat : fs.stat opts.path = some info)
    (hdepth : opts.maxDepth = -1 ∨ 0 ≤ opts.maxDepth)
    (hpath : isExcludedPath m opts.path opts.excludePaths = false)
    (htype : ¬((nodeTypeSize fs opts opts.path info).1 = FileType.file ∧
               isExcludedType opts.path opts.excludeTypes = true))
    (h : BuildTree fs m opts fuel = some (n, none)) :
    n.isSome = true := by
  unfold BuildTree at h
  rw [hstat] at h
  cases fuel with
  | zero => simp [buildTreeRecursive] at h
  | succ fuel =>
    simp only [buildTreeRecursive] at h
    have hdneg : ¬(opts.maxDepth ≠ -1 ∧ ((0 : Nat) : Int) > opts.maxDepth) := by
      rintro ⟨hne, hgt⟩
      rcases hdepth with h' | h'
      · exact hne h'
      · omega
    rw [if_neg hdneg] at h
    rw [if_neg (by simp [hpath])] at h
    rw [if_neg htype] at h
    by_cases h4 : (nodeTypeSize fs opts opts.path info).1 = FileType.directory
    · rw [if_pos h4] at h
      split at h
      · simp at h
      · split at h
        · exact absurd h (by simp)
        · simp at h
        · simp only [Option.some.injEq, Prod.mk.injEq] at h
          obtain ⟨h5, -⟩ := h
          rw [← h5]
          rfl
    · rw [if_neg h4] at h
      simp only [Option.some.injEq, Prod.mk.injEq] at h
      obtain ⟨h5, -⟩ := h
      rw [← h5]
      rfl

/-- Witness for the amended C2: an unexcluded file root yields a non-nil
tree. -/
theorem C2_root_witness :
    (some (Node.mk "b.md" "/r/b.md" FileType.file 7 [] false) : Option Node).isSome
      = true :=
  C2_root_filtered_like_any_node fsRootMd mNone
    ⟨"/r/b.md", -1, [], [".txt"], true, false⟩ 2 ⟨"b.md", 7, false, false⟩
    (some (Node.mk "b.md" "/r/b.md" FileType.file 7 [] false))
    rfl (Or.inl rfl) rfl (by decide) rfl

/-- C4 (counterexample): with follow-links enabled, the symlink /r/link
resolves to the regular file /r/a.go whose extension ".go" is excluded;
the claim says the reclassified File node is omitted, but the build keeps
it, because isExcludedType is applied to the symlink's own path. -/
theorem C4_counterexample :
    isExcludedType "/r/a.go" [".go"] = true ∧
    BuildTree fsLinkGo mNone optsLinkGo 3 =
      some (some (Node.mk "r" "/r" FileType.directory 0
        [Node.mk "link" "/r/link" FileType.file 7 [] false] false), none) :=
  ⟨rfl, rfl⟩

/-- C4 (amended): after symlink resolution to a regular file, the
type-exclusion check tests the symlink's own path, not the target's: the
reclassified File node is omitted iff the link path's extension is in
ExcludeTypes, and otherwise kept with the target's size. -/
theorem C4_symlink_exclusion_uses_link_path (fs : FS) (m : Matcher)
    (opts : BuildOptions) (fuel : Nat) (path : String) (info : FileInfo)
    (d : Nat) (t : String) (ti : FileInfo)
    (hfuel : 0 < fuel)
    (hdepth : ¬(opts.maxDepth ≠ -1 ∧ (d : Int) > opts.maxDepth))
    (hpath : isExcludedPath m path opts.excludePaths = false)
    (hnd : info.isDir = false) (hsym : info.isSymlink = true)
    (hfollow : opts.followLinks = true)
    (heval : fs.evalSymlinks path = some t)
    (hstat : fs.stat t = some ti) (htd : ti.isDir = false) :
    buildTreeRecursive fs m opts fuel path info d =
      (if isExcludedType path opts.excludeTypes then some (none, none)
       else some (some (Node.mk info.name path FileType.file ti.size []
              (isHiddenFile info.name)), none)) := by
  cases fuel with
  | zero => omega
  | succ fuel =>
    have hts : nodeTypeSize fs opts path info = (FileType.file, ti.size) := by
      simp [nodeTypeSize, hnd, hsym, hfollow, heval, hstat, htd]
    simp only [buildTreeRecursive]
    rw [if_neg hdepth, if_neg (by simp [hpath])]
    by_cases hexc : isExcludedType path opts.excludeTypes = true
    · rw [if_pos ⟨by rw [hts], hexc⟩, if_pos hexc]
    · rw [if_neg (fun hc => hexc hc.2), if_neg hexc]
      rw [if_neg (by simp [hts])]
      simp [hts]

/-- Witness for the amended C4 at the fsLinkGo child frame: the node is
kept or dropped according to the link path's own extension. -/
theorem C4_symlink_witness :
    buildTreeRecursive fsLinkGo mNone optsLinkGo 2 "/r/link"
      ⟨"link", 3, false, true⟩ 1 =
      (if isExcludedType "/r/link" optsLinkGo.excludeTypes then some (none, none)
       else some (some (Node.mk "link" "/r/link" FileType.file 7 [] false), none)) :=
  C4_symlink_exclusion_uses_link_path fsLinkGo mNone optsLinkGo 2 "/r/link"
    ⟨"link", 3, false, true⟩ 1 "/r/a.go" ⟨"a.go", 7, false, false⟩
    (by omega) (by decide) rfl rfl rfl rfl rfl rfl rfl

/-- C6 (counterexample): with IncludeFiles = false, a symlink child — not a
regular file — is dropped by the flag: it is absent from the children when
the flag is false and present when the flag is true, refuting the claim
that only regular files are dropped at this step. -/
theorem C6_counterexample :
    BuildTree fsLinkOnly mNone ⟨"/r", -1, [], [], false, false⟩ 3 =
      some (some (Node.mk "r" "/r" FileType.directory 0 [] false), none) ∧
    BuildTree fsLinkOnly mNone ⟨"/r", -1, [], [], true, false⟩ 3 =
      some (some (Node.mk "r" "/r" FileType.directory 0
        [Node.mk "link" "/r/link" FileType.symlink 3 [] false] false), none) :=
  ⟨rfl, rfl⟩

/-- C6 (amended): when IncludeFiles is false, the children loop skips
exactly the entries whose (unfollowed) metadata reports not-a-directory —
regular files and symlinks alike: the loop computes the same result as the
loop run on only the directory entries (entries whose Info failed are
skipped either way). -/
theorem C6_flag_skips_all_non_directories (opts : BuildOptions)
    (f : String → FileInfo → Option (Option Node × Option BuildError))
    (currentPath : String) (hinc : opts.includeFiles = false) :
    ∀ entries : List (Option FileInfo),
      buildChildren opts f currentPath entries =
        buildChildren opts f currentPath (entries.filter fun oe =>
          match oe with
          | some i => i.isDir
          | none => false) := by
  intro entries
  induction entries with
  | nil => rfl
  | cons head rest ih =>
    cases head with
    | none =>
      simp only [List.filter_cons]
      simp only [buildChildren]
      exact ih
    | some i =>
      by_cases hd : i.isDir = true
      · simp only [List.filter_cons, hd]
        simp only [buildChildren, hinc, hd, if_true]
        rw [ih]
      · have hd' : i.isDir = false := by
          cases hI : i.isDir
          · rfl
          · exact absurd hI hd
        simp only [List.filter_cons, hd']
        simp only [buildChildren, hinc, hd']
        exact ih

/-- Witness for the amended C6 on a mixed entry list (a file, a symlink, a
directory, and a failed-Info entry). -/
theorem C6_flag_witness :
    (⟨"/r", -1, [], [], false, false⟩ : BuildOptions).includeFiles = false ∧
    buildChildren ⟨"/r", -1, [], [], false, false⟩
        (fun _ _ => some (none, none)) "/r"
        [some ⟨"a.txt", 1, false, false⟩, some ⟨"link", 3, false, true⟩,
         some ⟨"d", 0, true, false⟩, none] =
      buildChildren ⟨"/r", -1, [], [], false, false⟩
        (fun _ _ => some (none, none)) "/r"
        (([some ⟨"a.txt", 1, false, false⟩, some ⟨"link", 3, false, true⟩,
           some ⟨"d", 0, true, false⟩, none]).filter fun oe =>
          match oe with
          | some i => i.isDir
          | none => false) :=
  ⟨rfl, C6_flag_skips_all_non_directories ⟨"/r", -1, [], [], false, false⟩
    (fun _ _ => some (none, none)) "/r" rfl
    [some ⟨"a.txt", 1, false, false⟩, some ⟨"link", 3, false, true⟩,
     some ⟨"d", 0, true, false⟩, none]⟩

/-- C5: for maxDepth = k ≥ 0, the tree BuildTree returns contains no node
at depth greater than k, and every node at depth exactly k is a leaf even
if it is a directory with entries (depthOk captures both).  In particular
maxDepth = 1 keeps the root and its immediate children only. -/
theorem C5_depth_limit (fs : FS) (m : Matcher) (opts : BuildOptions)
    (fuel k : Nat) (node : Node) (e : Option BuildError)
    (hk : opts.maxDepth = (k : Int))
    (h : BuildTree fs m opts fuel = some (some node, e)) :
    depthOk node k = true := by
  unfold BuildTree at h
  cases hstat : fs.stat opts.path with
  | none => rw [hstat] at h; simp at h
  | some info =>
    rw [hstat] at h
    have hmain := buildRec_depthOk fs m opts k hk fuel opts.path info 0 node e h
    simpa using hmain.2

/-- Witness for C5 on the fsChain fixture with maxDepth 1 and fuel 4: the
grandchild directory "leaf" is cut and "sub" is returned as a childless
leaf. -/
theorem C5_depth_limit_witness :
    (⟨"/r", 1, [], [], true, false⟩ : BuildOptions).maxDepth = ((1 : Nat) : Int) ∧
    depthOk (Node.mk "r" "/r" FileType.directory 0
      [Node.mk "sub" "/r/sub" FileType.directory 0 [] false] false) 1 = true :=
  ⟨rfl, C5_depth_limit fsChain mNone ⟨"/r", 1, [], [], true, false⟩ 4 1
    (Node.mk "r" "/r" FileType.directory 0
      [Node.mk "sub" "/r/sub" FileType.directory 0 [] false] false) none rfl rfl⟩

/-- C7: BuildTree never returns a non-nil tree together with a non-nil
error (no partial tree), and a node removed by the depth, path-exclusion or
type-exclusion rule is signaled by a (nil, nil) return of the recursive
builder, never by an error. -/
theorem C7_no_partial_tree :
    (∀ (fs : FS) (m : Matcher) (opts : BuildOptions) (fuel : Nat)
       (n : Option Node) (e : Option BuildError),
       BuildTree fs m opts fuel = some (n, e) → e ≠ none → n = none) ∧
    (∀ (fs : FS) (m : Matcher) (opts : BuildOptions) (fuel : Nat)
       (path : String) (info : FileInfo) (d : Nat),
       0 < fuel →
       ((opts.maxDepth ≠ -1 ∧ (d : Int) > opts.maxDepth) ∨
        isExcludedPath m path opts.excludePaths = true ∨
        ((nodeTypeSize fs opts path info).1 = FileType.file ∧
         isExcludedType path opts.excludeTypes = true)) →
       buildTreeRecursive fs m opts fuel path info d = some (none, none)) := by
  constructor
  · intro fs m opts fuel n e h he
    unfold BuildTree at h
    cases hstat : fs.stat opts.path with
    | none =>
      rw [hstat] at h
      simp only [Option.some.injEq, Prod.mk.injEq] at h
      exact h.1.symm
    | some info =>
      rw [hstat] at h
      exact buildRec_no_partial fs m opts fuel opts.path info 0 n e h he
  · intro fs m opts fuel path info d hfuel hfilter
    cases fuel with
    | zero => omega
    | succ fuel =>
      simp only [buildTreeRecursive]
      by_cases h1 : opts.maxDepth ≠ -1 ∧ (d : Int) > opts.maxDepth
      · rw [if_pos h1]
      · rw [if_neg h1]
        by_cases h2 : isExcludedPath m path opts.excludePaths = true
        · rw [if_pos h2]
        · rw [if_neg h2]
          rcases hfilter with hf | hf | hf
          · exact absurd hf h1
          · exact absurd hf h2
          · rw [if_pos hf]

/-- Witness for C7 at a concrete filtered root: a type-excluded entry is
signaled by (nil, nil). -/
theorem C7_no_partial_tree_witness :
    buildTreeRecursive fsRootTxt mNone optsRootTxt 1 "/r/a.txt"
      ⟨"a.txt", 5, false, false⟩ 0 = some (none, none) :=
  C7_no_partial_tree.2 fsRootTxt mNone optsRootTxt 1 "/r/a.txt"
    ⟨"a.txt", 5, false, false⟩ 0 (by omega) (Or.inr (Or.inr ⟨rfl, rfl⟩))

/-- C9: for every maxDepth = k ≥ 0 the build terminates on every modelled
filesystem — including filesystems with symlink cycles under follow-links —
because the depth check returns before any further descent once the depth
exceeds k: fuel k + 2 always produces a result (`isSome`; the outer `none`
models a run that does not finish). -/
theorem C9_terminates_with_depth_bound (fs : FS) (m : Matcher)
    (opts : BuildOptions) (fuel k : Nat)
    (hk : opts.maxDepth = (k : Int)) (hfuel : k + 2 ≤ fuel) :
    (BuildTree fs m opts fuel).isSome = true := by
  unfold BuildTree
  cases hstat : fs.stat opts.path with
  | none => rfl
  | some info => exact buildRec_isSome fs m opts k hk fuel 0 opts.path info (by omega)

/-- Witness for C9 on the cyclic fixture (follow-links enabled, every
symlink resolves into an unboundedly deep tree): maxDepth 1 with fuel 3
still terminates. -/
theorem C9_terminates_witness :
    (⟨"/r", 1, [], [], true, true⟩ : BuildOptions).maxDepth = ((1 : Nat) : Int) ∧
    1 + 2 ≤ 3 ∧
    (BuildTree fsCycle mNone ⟨"/r", 1, [], [], true, true⟩ 3).isSome = true :=
  ⟨rfl, by omega,
    C9_terminates_with_depth_bound fsCycle mNone ⟨"/r", 1, [], [], true, true⟩ 3 1
      rfl (by omega)⟩

/-- C10: a directory node at depth exactly maxDepth still has its listing
read — os.ReadDir runs before any per-child depth check — so an unreadable
directory at depth maxDepth aborts the whole build with a directory-read
error even though none of its children could have appeared in the tree. -/
theorem C10_readDir_at_max_depth (fs : FS) (m : Matcher) (opts : BuildOptions)
    (fuel k : Nat) (path : String) (info : FileInfo) (msg : String)
    (hk : opts.maxDepth = (k : Int)) (hfuel : 0 < fuel)
    (hpath : isExcludedPath m path opts.excludePaths = false)
    (hdir : info.isDir = true)
    (hread : fs.readDir path = Except.error msg) :
    buildTreeRecursive fs m opts fuel path info k =
      some (none, some (BuildError.dirReadError path msg)) := by
  cases fuel with
  | zero => omega
  | succ fuel =>
    have hts : nodeTypeSize fs opts path info = (FileType.directory, 0) := by
      simp [nodeTypeSize, hdir]
    simp only [buildTreeRecursive]
    rw [if_neg (by rw [hk]; omega)]
    rw [if_neg (by simp [hpath])]
    rw [if_neg (by simp [hts])]
    rw [if_pos (by simp [hts])]
    rw [hread]

/-- Witness for C10: maxDepth 0 with an unreadable root directory aborts
with the directory-read error. -/
theorem C10_readDir_witness :
    isExcludedPath mNone "/r" [] = false ∧
    (⟨"r", 0, true, false⟩ : FileInfo).isDir = true ∧
    fsUnreadable.readDir "/r" = Except.error "permission denied" ∧
    buildTreeRecursive fsUnreadable mNone ⟨"/r", 0, [], [], true, false⟩ 1 "/r"
      ⟨"r", 0, true, false⟩ 0 =
      some (none, some (BuildError.dirReadError "/r" "permission denied")) :=
  ⟨rfl, rfl, rfl,
    C10_readDir_at_max_depth fsUnreadable mNone ⟨"/r", 0, [], [], true, false⟩ 1 0
      "/r" ⟨"r", 0, true, false⟩ "permission denied" rfl (by omega) rfl rfl rfl⟩

/-- C8: the path-exclusion check returns true exactly when some pattern in
the list both compiles and matches the path; a pattern whose compilation
fails (match result `none`) is treated as a non-match, never propagates an
error (the check is Bool-valued) and never excludes an entry. -/
theorem C8_invalid_pattern_fails_open (m : Matcher) (path : String)
    (patterns : List String) :
    isExcludedPath m path patterns = true ↔
      ∃ pat ∈ patterns, m pat path = some true := by
  unfold isExcludedPath
  rw [List.any_eq_true]
  constructor
  · rintro ⟨pat, hmem, hf⟩
    refine ⟨pat, hmem, ?_⟩
    cases h : m pat path with
    | none => rw [h] at hf; cases hf
    | some b => rw [h] at hf; cases b with
      | false => cases hf
      | true => rfl
  · rintro ⟨pat, hmem, hm⟩
    exact ⟨pat, hmem, by rw [hm]⟩

end DirTree
